import Mathlib

/-!
Shallow embedding of `src/script.js` (coin-panda): a browser widget that
fetches cryptocurrency market data and renders a sortable, filterable,
currency-selectable table.

Modelling conventions:
* JS numbers are exact rationals (`ℚ`); a nullable number is `Option ℚ`,
  and the JS coercion of `null` to `0` (in arithmetic and relational
  operators) is made explicit by `jsNum`.
* `Math.round` is modelled by its ECMAScript semantics: the nearest
  integer, ties toward positive infinity.
* Template-literal stringification of a number `n / 10^p` is modelled by
  the shortest decimal form (trailing fraction zeros stripped, integers
  printed without a decimal point), matching JS output for such values.
* `Array.prototype.sort` is a stable in-place sort (stability is required
  by ES2019); it is modelled by `List.mergeSort` on the relation
  "comparator result is not positive", and the in-place mutation is made
  explicit in the state-level functions.
* `String.prototype.localeCompare` is modelled by the lexicographic
  linear order on strings.
-/

namespace CoinPanda

/-- ECMAScript semantics of JS `Math.round`: the integer nearest to `x`,
with ties rounded toward positive infinity; equivalently the floor of
`x + 1/2`.  In particular `Math.round(-12.5) = -12`. -/
def mathRound (x : ℚ) : ℤ := ⌊x + 1/2⌋

/-- JS `ToNumber` coercion of a possibly-`null` numeric value: `null`
coerces to `0` in arithmetic (`null * 100 = 0`, `null - x = -x`) and in
relational comparisons (`null > 0` and `null < 0` are both false). -/
def jsNum : Option ℚ → ℚ
  | none => 0
  | some q => q

/-- Decimal digit characters of a natural number, most significant first,
computed with explicit fuel so that the definition is structural (the fuel
`q` itself always suffices, since the argument shrinks by a factor of ten
while the fuel shrinks by one). -/
def natDigitsAux : ℕ → ℕ → List Char
  | 0, q => [Nat.digitChar q]
  | fuel + 1, q =>
    if q < 10 then [Nat.digitChar q]
    else natDigitsAux fuel (q / 10) ++ [Nat.digitChar (q % 10)]

/-- Decimal digit characters of a natural number, most significant first. -/
def natDigits (q : ℕ) : List Char := natDigitsAux q q

/-- Decimal digit characters of `r` padded with leading zeros to exactly
`p` characters: the fraction part of a fixed-point decimal rendering. -/
def fracDigits (r : ℕ) : (p : ℕ) → List Char
  | 0 => []
  | p + 1 => fracDigits (r / 10) p ++ [Nat.digitChar (r % 10)]

/-- Strip trailing decimal zeros from the fraction: JS stringifies a number
in its shortest decimal form, so `1230 / 10^3` prints as `"1.23"` and
`-100 / 10^2` prints as `"-1"`.  Returns the reduced numerator together
with the number of remaining fraction digits. -/
def stripZeros (n : ℤ) : ℕ → ℤ × ℕ
  | 0 => (n, 0)
  | p + 1 => if n % 10 = 0 then stripZeros (n / 10) p else (n, p + 1)

/-- JS stringification of the number `n / 10^p` (the shape produced by
`Math.round(value * 10^p) / 10^p`): shortest decimal form, `"-"` sign for
negative values, no decimal point for integral values, `0` printed as
`"0"`. -/
def decimalShortString (n : ℤ) (p : ℕ) : String :=
  let s := stripZeros n p
  if s.2 = 0 then
    (if s.1 < 0 then "-" else "") ++ String.mk (natDigits s.1.natAbs)
  else
    (if s.1 < 0 then "-" else "") ++
      String.mk (natDigits (s.1.natAbs / 10 ^ s.2)) ++ "." ++
      String.mk (fracDigits (s.1.natAbs % 10 ^ s.2) s.2)

/-- Embedding of `formatPercentage` (src/script.js lines 35-36):
`` `${Math.round(value * 10 ** percision) / 10 ** percision}%` ``.
The parameter keeps the source's spelling `percision` and its default
value `2`. -/
def formatPercentage (value : ℚ) (percision : ℕ := 2) : String :=
  decimalShortString (mathRound (value * 10 ^ percision)) percision ++ "%"

/-- Rounding rule named by the spec: round half away from zero.  This is
a second definition written from the spec's words, used only to compare
against the code's `Math.round`-based behaviour. -/
def roundHalfAwayFromZero (x : ℚ) : ℤ :=
  if x < 0 then -⌊-x + 1/2⌋ else ⌊x + 1/2⌋

/-- Percentage formatter as the spec describes it: round half away from
zero on `value * 10^precision`, divide back, append `%`.  Written from the
spec's words, to be compared with `formatPercentage`. -/
def specFormatPercentage (value : ℚ) (precision : ℕ := 2) : String :=
  decimalShortString (roundHalfAwayFromZero (value * 10 ^ precision)) precision ++ "%"

/-- Currency symbol used by `toLocaleString("en-US", {style: "currency"})`.
Only the digit behaviour of `formatCurrency` is specified by the claims,
so the symbol table is simplified to the one currency the spec's examples
use; an unknown code is printed as the code itself, as `toLocaleString`
does for unknown ISO codes. -/
def currencySymbol (currency : String) : String :=
  if currency == "USD" then "$" else currency ++ " "

/-- Fixed-point decimal string with exactly `digits` fraction digits:
model of `Number.prototype.toLocaleString` with
`minimumFractionDigits = maximumFractionDigits = digits`.  Locale grouping
separators are omitted; they affect only the integer part and no claim
depends on them. -/
def fixedDecimalString (value : ℚ) (digits : ℕ) : String :=
  let n := mathRound (value * 10 ^ digits)
  (if n < 0 then "-" else "") ++
    String.mk (natDigits (n.natAbs / 10 ^ digits)) ++
    (if digits = 0 then "" else "." ++ String.mk (fracDigits (n.natAbs % 10 ^ digits) digits))

/-- Embedding of `formatCurrency` (src/script.js lines 21-30): decimal
digit count is `0` when `showDecimal` is false, otherwise `5` when
`value < 1` and `2` otherwise; the value is rendered with exactly that
many fraction digits. -/
def formatCurrency (value : ℚ) (currency : String) (showDecimal : Bool := true) : String :=
  let decimalDigits : ℕ := if !showDecimal then 0 else if value < 1 then 5 else 2
  currencySymbol currency ++ fixedDecimalString value decimalDigits

/-- Distance from the tail of the list to the first `'.'`, if any. -/
def countAfterDot : List Char → Option ℕ
  | [] => none
  | c :: cs => if c = '.' then some 0 else (countAfterDot cs).map (· + 1)

/-- Number of characters after the last `'.'` of a string (`0` when the
string has no `'.'`): the count of rendered fraction digits. -/
def fractionDigitCount (s : String) : ℕ :=
  (countAfterDot s.data.reverse).getD 0

/-- Sortable fields of a coin record, as used for the `data-sort-column`
header attributes; names follow the API schema listed in the spec. -/
inductive Field
  | market_cap_rank
  | image
  | name
  | symbol
  | current_price
  | price_change_percentage_1h_in_currency
  | price_change_percentage_24h_in_currency
  | price_change_percentage_7d_in_currency
  | total_volume
  | market_cap
deriving DecidableEq

/-- Coin record as returned by the market-data API (spec section 4.2):
string-valued identity fields, numeric market fields, and three percentage
fields that can be `null`. -/
structure Coin where
  market_cap_rank : ℚ
  image : String
  name : String
  symbol : String
  current_price : ℚ
  price_change_percentage_1h_in_currency : Option ℚ
  price_change_percentage_24h_in_currency : Option ℚ
  price_change_percentage_7d_in_currency : Option ℚ
  total_volume : ℚ
  market_cap : ℚ
deriving DecidableEq

/-- Whether `coin[f]` is a JS string.  On the coin record the string-valued
fields are exactly `image`, `name` and `symbol`, so the comparator's
`typeof a[sortBy] === "string"` test depends only on the field. -/
def fieldIsString : Field → Bool
  | .image => true
  | .name => true
  | .symbol => true
  | _ => false

/-- String value of a string-typed field (meaningless `""` on the numeric
fields, which `sortByColumn` never consults there). -/
def strVal (f : Field) (c : Coin) : String :=
  match f with
  | .image => c.image
  | .name => c.name
  | .symbol => c.symbol
  | _ => ""

/-- Numeric value of a number-typed field.  The three percentage fields can
be `null`, and JS subtraction coerces `null` to `0` (`jsNum`).  On the
string fields the result is a meaningless `0`, never consulted by
`sortByColumn`. -/
def numVal (f : Field) (c : Coin) : ℚ :=
  match f with
  | .market_cap_rank => c.market_cap_rank
  | .current_price => c.current_price
  | .price_change_percentage_1h_in_currency =>
      jsNum c.price_change_percentage_1h_in_currency
  | .price_change_percentage_24h_in_currency =>
      jsNum c.price_change_percentage_24h_in_currency
  | .price_change_percentage_7d_in_currency =>
      jsNum c.price_change_percentage_7d_in_currency
  | .total_volume => c.total_volume
  | .market_cap => c.market_cap
  | _ => 0

/-- Model of `String.prototype.localeCompare`: a total comparison returning
a negative, zero or positive number, here the lexicographic linear order on
strings. -/
def localeCompare (a b : String) : ℤ :=
  if a < b then -1 else if b < a then 1 else 0

/-- Embedding of `sortByColumn` (src/script.js lines 147-155): the
comparator over field `sortBy` in direction `sort`; string-typed fields
compare via `localeCompare`, numeric fields via subtraction; `"asc"`
ascending, any other direction value descending. -/
def sortByColumn (sortBy : Field) (sort : String) (a b : Coin) : ℚ :=
  if fieldIsString sortBy then
    if sort == "asc" then (localeCompare (strVal sortBy a) (strVal sortBy b) : ℚ)
    else (localeCompare (strVal sortBy b) (strVal sortBy a) : ℚ)
  else
    if sort == "asc" then numVal sortBy a - numVal sortBy b
    else numVal sortBy b - numVal sortBy a

/-- Embedding of `data.sort(sortByColumn(sortBy, sort))` (line 135):
`Array.prototype.sort` is a stable sort that places `a` before `b` when the
comparator returns a negative value; modelled by the stable `mergeSort` on
the relation "comparator result is not positive". -/
def sortData (sortBy : Field) (sort : String) (data : List Coin) : List Coin :=
  data.mergeSort fun a b => decide (sortByColumn sortBy sort a b ≤ 0)

/-- Whether the second list occurs as an initial segment of the first. -/
def startsWith : List Char → List Char → Bool
  | _, [] => true
  | [], _ :: _ => false
  | a :: as, b :: bs => a == b && startsWith as bs

/-- Model of `String.prototype.includes` on char lists: `needle` occurs as
a contiguous substring of the list; the empty needle always matches. -/
def hasSubstring (needle : List Char) : List Char → Bool
  | [] => needle.isEmpty
  | c :: cs => startsWith (c :: cs) needle || hasSubstring needle cs

/-- JS `s.includes(pattern)`. -/
def jsIncludes (s pattern : String) : Bool :=
  hasSubstring pattern.data s.data

/-- JS `String.prototype.toLowerCase` (ASCII case mapping), defined over
the character list. -/
def toLowerCase (s : String) : String :=
  String.mk (s.data.map Char.toLower)

/-- Embedding of `filterBySearch` (lines 160-162): keep coins whose
lowercased name or lowercased symbol contains the lowercased search text. -/
def filterBySearch (search : String) (coin : Coin) : Bool :=
  jsIncludes (toLowerCase coin.name) (toLowerCase search) ||
    jsIncludes (toLowerCase coin.symbol) (toLowerCase search)

/-- Derived dataset of `renderTable` (lines 135-136): sort first, then
filter; the spec names this operation `computeDerived`. -/
def computeDerived (data : List Coin) (sortBy : Field) (sort search : String) : List Coin :=
  (sortData sortBy sort data).filter (filterBySearch search)

/-- Embedding of `getColorClass` (lines 48-58).  The argument can be a
`null` percentage; JS relational operators coerce `null` to `0`, so both
tests are false and the neutral class `""` results. -/
def getColorClass (value : Option ℚ) : String :=
  if jsNum value > 0 then "positive"
  else if jsNum value < 0 then "negative"
  else ""

/-- One rendered table row (lines 98-121): raw identity cells plus the
formatted price, the three sign-classed percentage cells, and the
no-decimal volume and market-cap cells. -/
structure Row where
  market_cap_rank : ℚ
  image : String
  name : String
  symbol : String
  price : String
  color1h : String
  pct1h : String
  color24h : String
  pct24h : String
  color7d : String
  pct7d : String
  volume : String
  market_cap : String
deriving DecidableEq

/-- Rendering of a single row of `renderRows` (lines 97-122).  The
percentage cells pass the possibly-`null` field to `getColorClass` and to
`formatPercentage`; in the latter the `null` is coerced to `0` by the
arithmetic inside (`jsNum`). -/
def renderRow (currency : String) (coin : Coin) : Row :=
  { market_cap_rank := coin.market_cap_rank
    image := coin.image
    name := coin.name
    symbol := coin.symbol
    price := formatCurrency coin.current_price currency true
    color1h := getColorClass coin.price_change_percentage_1h_in_currency
    pct1h := formatPercentage (jsNum coin.price_change_percentage_1h_in_currency) 2
    color24h := getColorClass coin.price_change_percentage_24h_in_currency
    pct24h := formatPercentage (jsNum coin.price_change_percentage_24h_in_currency) 2
    color7d := getColorClass coin.price_change_percentage_7d_in_currency
    pct7d := formatPercentage (jsNum coin.price_change_percentage_7d_in_currency) 2
    volume := formatCurrency coin.total_volume currency false
    market_cap := formatCurrency coin.market_cap currency false }

/-- Embedding of `renderRows` (lines 94-123): one row appended per record. -/
def renderRows (currency : String) (data : List Coin) : List Row :=
  data.map (renderRow currency)

/-- View state (spec section 3): the table's data attributes (currency,
sort field, sort direction, search text), the process-wide
`lastFetchedData` array, and the rendered rows. -/
structure State where
  currency : String
  sortBy : Field
  sort : String
  search : String
  lastFetchedData : List Coin
  rows : List Row
deriving DecidableEq

/-- Embedding of `renderTable` (lines 128-141).  `data.sort(...)` sorts the
argument array in place, and at every call site the argument is the
`lastFetchedData` array itself (`updateSearch` and `updateSort` pass it
directly, and `fetchAndRenderTable` executes `lastFetchedData = data`
immediately before `renderTable(data)`), so the in-place mutation is
modelled by storing the sorted list back into `lastFetchedData`. -/
def renderTable (s : State) : State :=
  let sortedData := sortData s.sortBy s.sort s.lastFetchedData
  let filteredData := sortedData.filter (filterBySearch s.search)
  { s with
    lastFetchedData := sortedData
    rows := renderRows s.currency filteredData }

/-- Embedding of `updateSearch` (lines 185-190): store the search text in
the table state and re-render from `lastFetchedData`. -/
def updateSearch (value : String) (s : State) : State :=
  renderTable { s with search := value }

/-- Embedding of `updateSort` (lines 210-226): clicking the header already
sorted by flips the direction (`"desc"` becomes `"asc"`, anything else
becomes `"desc"`); clicking a different header installs that header's
default direction. -/
def updateSort (newSortBy : Field) (defaultSort : String) (s : State) : State :=
  let newOrderBy :=
    if s.sortBy == newSortBy then
      if s.sort == "desc" then "asc" else "desc"
    else defaultSort
  renderTable { s with sortBy := newSortBy, sort := newOrderBy }

/-- Observable overlay and network events of one fetch-and-render cycle,
in program order. -/
inductive OverlayEv
  | shown
  | requested
  | hidden
deriving DecidableEq

/-- Embedding of `fetchAndRenderTable` (lines 167-180).  The single
`await` of `getCoinsMarket` is modelled by taking the settled fetch result
as an argument.  On success the code runs
`$overlay.show(); await ...; $overlay.hide(); lastFetchedData = data;
renderTable(data)`.  On rejection the `await` throws out of the `async`
function: the overlay is shown, the request issued, and nothing after the
`await` runs, so the overlay is never hidden and the state is unchanged. -/
def fetchAndRenderTable (s : State) (fetchResult : Except String (List Coin)) :
    List OverlayEv × Except String State :=
  match fetchResult with
  | .ok data =>
      ([.shown, .requested, .hidden],
        .ok (renderTable { s with lastFetchedData := data }))
  | .error e => ([.shown, .requested], .error e)

/-- Embedding of `updateCurrency` (lines 196-204): store the new currency
(the dropdown label is UI-only and not modelled) and run one
fetch-and-render cycle. -/
def updateCurrency (currency : String) (s : State)
    (fetchResult : Except String (List Coin)) :
    List OverlayEv × Except String State :=
  fetchAndRenderTable { s with currency := currency } fetchResult

/-- Demo coin record (the spec's example dataset, section 8). -/
def btc : Coin :=
  { market_cap_rank := 1
    image := "btc.png"
    name := "Bitcoin"
    symbol := "btc"
    current_price := 50000
    price_change_percentage_1h_in_currency := some 1
    price_change_percentage_24h_in_currency := some (-2)
    price_change_percentage_7d_in_currency := some 3
    total_volume := 700
    market_cap := 900000 }

/-- Demo coin record (the spec's example dataset, section 8). -/
def eth : Coin :=
  { market_cap_rank := 2
    image := "eth.png"
    name := "Ethereum"
    symbol := "eth"
    current_price := 3000
    price_change_percentage_1h_in_currency := some 2
    price_change_percentage_24h_in_currency := some 1
    price_change_percentage_7d_in_currency := some (-1)
    total_volume := 500
    market_cap := 400000 }

/-- Demo coin record with all three percentage fields `null`. -/
def nullCoin : Coin :=
  { market_cap_rank := 3
    image := "null.png"
    name := "Nullcoin"
    symbol := "nul"
    current_price := 1
    price_change_percentage_1h_in_currency := none
    price_change_percentage_24h_in_currency := none
    price_change_percentage_7d_in_currency := none
    total_volume := 1
    market_cap := 1 }

/-- Demo coin record whose percentage fields are a true `0`. -/
def zeroCoin : Coin :=
  { market_cap_rank := 4
    image := "zero.png"
    name := "Zerocoin"
    symbol := "zro"
    current_price := 1
    price_change_percentage_1h_in_currency := some 0
    price_change_percentage_24h_in_currency := some 0
    price_change_percentage_7d_in_currency := some 0
    total_volume := 1
    market_cap := 1 }

/-- Demo view state: price column ascending, no search, two coins fetched
in the API's order `[btc, eth]` (descending price, so an ascending render
must reorder them). -/
def demoState : State :=
  { currency := "USD"
    sortBy := .current_price
    sort := "asc"
    search := ""
    lastFetchedData := [btc, eth]
    rows := [] }

/-! ### Comparator and sorting lemmas -/

theorem localeCompare_swap (a b : String) : localeCompare b a = -localeCompare a b := by
  unfold localeCompare
  rcases lt_trichotomy a b with h | rfl | h
  · simp [h, asymm h]
  · simp
  · simp [h, asymm h]

theorem localeCompare_nonpos (a b : String) : localeCompare a b ≤ 0 ↔ a ≤ b := by
  unfold localeCompare
  rcases lt_trichotomy a b with h | rfl | h
  · simp [h, h.le]
  · simp
  · simp [h, asymm h, not_le.mpr h]

theorem localeCompare_eq_zero (a b : String) : localeCompare a b = 0 ↔ a = b := by
  unfold localeCompare
  rcases lt_trichotomy a b with h | rfl | h
  · simp [h, h.ne]
  · simp
  · simp [h, asymm h, h.ne']

theorem sortByColumn_desc_eq (f : Field) (a b : Coin) :
    sortByColumn f "desc" a b = sortByColumn f "asc" b a := by
  cases hf : fieldIsString f <;> simp [sortByColumn, hf]

theorem sortByColumn_asc_swap (f : Field) (a b : Coin) :
    sortByColumn f "asc" b a = -sortByColumn f "asc" a b := by
  cases hf : fieldIsString f
  · simp [sortByColumn, hf]
  · simp [sortByColumn, hf, localeCompare_swap (strVal f a) (strVal f b)]

theorem sortByColumn_asc_nonpos (f : Field) (a b : Coin) :
    sortByColumn f "asc" a b ≤ 0 ↔
      if fieldIsString f then strVal f a ≤ strVal f b else numVal f a ≤ numVal f b := by
  cases hf : fieldIsString f
  · simp [sortByColumn, hf, sub_nonpos]
  · simp [sortByColumn, hf, Int.cast_nonpos, localeCompare_nonpos]

theorem sortByColumn_asc_ne_symm (f : Field) (a b : Coin)
    (h : sortByColumn f "asc" a b ≠ 0) : sortByColumn f "asc" b a ≠ 0 := by
  rw [sortByColumn_asc_swap]
  exact neg_ne_zero.mpr h

theorem sortLe_asc_trans (f : Field) : ∀ a b c : Coin,
    decide (sortByColumn f "asc" a b ≤ 0) = true →
    decide (sortByColumn f "asc" b c ≤ 0) = true →
    decide (sortByColumn f "asc" a c ≤ 0) = true := by
  intro a b c hab hbc
  simp only [decide_eq_true_eq, sortByColumn_asc_nonpos] at hab hbc ⊢
  cases hf : fieldIsString f <;>
    simp only [hf, if_true, if_false, Bool.false_eq_true] at hab hbc ⊢ <;>
    exact le_trans hab hbc

theorem sortLe_asc_total (f : Field) : ∀ a b : Coin,
    (decide (sortByColumn f "asc" a b ≤ 0) || decide (sortByColumn f "asc" b a ≤ 0)) = true := by
  intro a b
  rw [Bool.or_eq_true, decide_eq_true_eq, decide_eq_true_eq, sortByColumn_asc_swap f a b]
  rcases le_total (sortByColumn f "asc" a b) 0 with h | h
  · exact Or.inl h
  · exact Or.inr (neg_nonpos.mpr h)

theorem sortLe_desc_trans (f : Field) : ∀ a b c : Coin,
    decide (sortByColumn f "desc" a b ≤ 0) = true →
    decide (sortByColumn f "desc" b c ≤ 0) = true →
    decide (sortByColumn f "desc" a c ≤ 0) = true := by
  intro a b c hab hbc
  simp only [decide_eq_true_eq, sortByColumn_desc_eq, sortByColumn_asc_nonpos] at hab hbc ⊢
  cases hf : fieldIsString f <;>
    simp only [hf, if_true, if_false, Bool.false_eq_true] at hab hbc ⊢ <;>
    exact le_trans hbc hab

theorem sortLe_desc_total (f : Field) : ∀ a b : Coin,
    (decide (sortByColumn f "desc" a b ≤ 0) || decide (sortByColumn f "desc" b a ≤ 0)) = true := by
  intro a b
  rw [Bool.or_eq_true, decide_eq_true_eq, decide_eq_true_eq, sortByColumn_desc_eq f a b,
    sortByColumn_desc_eq f b a, sortByColumn_asc_swap f a b]
  rcases le_total (sortByColumn f "asc" a b) 0 with h | h
  · exact Or.inr h
  · exact Or.inl (neg_nonpos.mpr h)

theorem sortData_perm (f : Field) (dir : String) (data : List Coin) :
    List.Perm (sortData f dir data) data :=
  List.mergeSort_perm data _

theorem sortData_sorted_asc (f : Field) (data : List Coin) :
    (sortData f "asc" data).Pairwise fun a b => sortByColumn f "asc" a b ≤ 0 := by
  have h := List.sorted_mergeSort (sortLe_asc_trans f) (sortLe_asc_total f) data
  exact h.imp fun hab => of_decide_eq_true hab

theorem sortData_sorted_desc (f : Field) (data : List Coin) :
    (sortData f "desc" data).Pairwise fun a b => sortByColumn f "desc" a b ≤ 0 := by
  have h := List.sorted_mergeSort (sortLe_desc_trans f) (sortLe_desc_total f) data
  exact h.imp fun hab => of_decide_eq_true hab

/-! ### Filter lemmas -/

theorem hasSubstring_nil (l : List Char) : hasSubstring [] l = true := by
  cases l <;> simp [hasSubstring, startsWith, List.isEmpty]

theorem filterBySearch_empty (c : Coin) : filterBySearch "" c = true := by
  have h : (toLowerCase "").data = [] := rfl
  simp [filterBySearch, jsIncludes, h, hasSubstring_nil]

theorem computeDerived_empty_search (data : List Coin) (f : Field) (dir : String) :
    computeDerived data f dir "" = sortData f dir data := by
  unfold computeDerived
  exact List.filter_eq_self.mpr fun a _ => filterBySearch_empty a

/-! ### Reversal of the sort order -/

theorem sortData_asc_eq_reverse_desc (f : Field) (data : List Coin)
    (hnt : data.Pairwise fun a b => sortByColumn f "asc" a b ≠ 0) :
    sortData f "asc" data = (sortData f "desc" data).reverse := by
  have hperm : List.Perm (sortData f "asc" data) ((sortData f "desc" data).reverse) :=
    (sortData_perm f "asc" data).trans
      ((sortData_perm f "desc" data).symm.trans (List.reverse_perm _).symm)
  have hA : (sortData f "asc" data).Pairwise fun a b => sortByColumn f "asc" a b ≤ 0 :=
    sortData_sorted_asc f data
  have hB : ((sortData f "desc" data).reverse).Pairwise
      fun a b => sortByColumn f "asc" a b ≤ 0 := by
    have h1 : (sortData f "desc" data).Pairwise
        fun a b => sortByColumn f "asc" b a ≤ 0 :=
      (sortData_sorted_desc f data).imp fun h => by rwa [sortByColumn_desc_eq] at h
    exact List.pairwise_reverse.mpr h1
  have hsym : Symmetric fun a b : Coin => sortByColumn f "asc" a b ≠ 0 :=
    fun a b h => sortByColumn_asc_ne_symm f a b h
  have hforall := hnt.forall hsym
  refine List.Perm.eq_of_sorted ?_ hA hB hperm
  intro a b ha hb hab hba
  by_contra hne
  have ha' : a ∈ data := (sortData_perm f "asc" data).subset ha
  have hb' : b ∈ data :=
    ((sortData_perm f "desc" data).subset (List.mem_reverse.mp hb))
  have hne0 : sortByColumn f "asc" a b ≠ 0 := hforall ha' hb' hne
  have : sortByColumn f "asc" a b = 0 := by
    have h2 : -sortByColumn f "asc" a b ≤ 0 := by
      rwa [sortByColumn_asc_swap] at hba
    linarith
  exact hne0 this

/-! ### Decimal string lemmas -/

theorem digitChar_ne_dot (d : ℕ) : Nat.digitChar d ≠ '.' := by
  by_cases h : d < 16
  · interval_cases d <;> decide
  · have h0 : d ≠ 0 := by omega
    have h1 : d ≠ 1 := by omega
    have h2 : d ≠ 2 := by omega
    have h3 : d ≠ 3 := by omega
    have h4 : d ≠ 4 := by omega
    have h5 : d ≠ 5 := by omega
    have h6 : d ≠ 6 := by omega
    have h7 : d ≠ 7 := by omega
    have h8 : d ≠ 8 := by omega
    have h9 : d ≠ 9 := by omega
    have h10 : d ≠ 10 := by omega
    have h11 : d ≠ 11 := by omega
    have h12 : d ≠ 12 := by omega
    have h13 : d ≠ 13 := by omega
    have h14 : d ≠ 14 := by omega
    have h15 : d ≠ 15 := by omega
    simp only [Nat.digitChar, h0, h1, h2, h3, h4, h5, h6, h7, h8, h9, h10, h11, h12,
      h13, h14, h15, if_false]
    decide

theorem dot_not_mem_natDigitsAux : ∀ fuel q : ℕ, '.' ∉ natDigitsAux fuel q := by
  intro fuel
  induction fuel with
  | zero =>
    intro q
    simp [natDigitsAux, Ne.symm (digitChar_ne_dot q)]
  | succ n ih =>
    intro q
    simp only [natDigitsAux]
    split
    · simp [Ne.symm (digitChar_ne_dot q)]
    · simp [List.mem_append, ih (q / 10), Ne.symm (digitChar_ne_dot (q % 10))]

theorem dot_not_mem_natDigits (q : ℕ) : '.' ∉ natDigits q :=
  dot_not_mem_natDigitsAux q q

theorem dot_not_mem_fracDigits : ∀ p r : ℕ, '.' ∉ fracDigits r p := by
  intro p
  induction p with
  | zero => intro r; simp [fracDigits]
  | succ n ih =>
    intro r
    simp [fracDigits, List.mem_append, ih (r / 10), Ne.symm (digitChar_ne_dot (r % 10))]

theorem length_fracDigits : ∀ p r : ℕ, (fracDigits r p).length = p := by
  intro p
  induction p with
  | zero => intro r; rfl
  | succ n ih => intro r; simp [fracDigits, ih (r / 10)]

theorem countAfterDot_no_dot : ∀ xs : List Char, '.' ∉ xs → countAfterDot xs = none := by
  intro xs
  induction xs with
  | nil => intro _; rfl
  | cons c cs ih =>
    intro h
    simp only [List.mem_cons] at h
    push_neg at h
    simp [countAfterDot, Ne.symm h.1, ih h.2]

theorem countAfterDot_append (xs rest : List Char) (h : '.' ∉ xs) :
    countAfterDot (xs ++ '.' :: rest) = some xs.length := by
  induction xs with
  | nil => simp [countAfterDot]
  | cons c cs ih =>
    simp only [List.mem_cons] at h
    push_neg at h
    simp [countAfterDot, Ne.symm h.1, ih h.2]

theorem fractionDigitCount_no_dot (s : String) (h : '.' ∉ s.data) :
    fractionDigitCount s = 0 := by
  unfold fractionDigitCount
  rw [countAfterDot_no_dot _ (by simpa using h)]
  rfl

theorem fractionDigitCount_eq_of_split (s : String) (a frac : List Char)
    (hs : s.data = a ++ '.' :: frac) (hf : '.' ∉ frac) :
    fractionDigitCount s = frac.length := by
  unfold fractionDigitCount
  rw [hs]
  have h1 : (a ++ '.' :: frac).reverse = frac.reverse ++ '.' :: a.reverse := by
    simp [List.reverse_append, List.reverse_cons]
  rw [h1, countAfterDot_append _ _ (by simpa using hf)]
  simp

theorem dot_not_mem_sign (n : ℤ) : '.' ∉ (if n < 0 then "-" else "").data := by
  split <;> decide

theorem fractionDigitCount_prefix_fixed (pre : String) (hpre : '.' ∉ pre.data)
    (q : ℚ) (d : ℕ) :
    fractionDigitCount (pre ++ fixedDecimalString q d) = d := by
  cases d with
  | zero =>
    apply fractionDigitCount_no_dot
    simp [fixedDecimalString, List.mem_append, hpre, dot_not_mem_natDigits,
      dot_not_mem_sign]
  | succ k =>
    have hsplit : (pre ++ fixedDecimalString q (k + 1)).data
        = (pre.data ++ (if mathRound (q * 10 ^ (k + 1)) < 0 then "-" else "").data
            ++ natDigits ((mathRound (q * 10 ^ (k + 1))).natAbs / 10 ^ (k + 1)))
          ++ '.' :: fracDigits ((mathRound (q * 10 ^ (k + 1))).natAbs % 10 ^ (k + 1)) (k + 1) := by
      simp [fixedDecimalString]
    rw [fractionDigitCount_eq_of_split _ _ _ hsplit (dot_not_mem_fracDigits _ _),
      length_fracDigits]

theorem dot_not_mem_currencySymbol (currency : String) (h : '.' ∉ currency.data) :
    '.' ∉ (currencySymbol currency).data := by
  unfold currencySymbol
  split
  · decide
  · simp only [String.data_append, List.mem_append]
    rintro (hc | hc)
    · exact h hc
    · exact absurd hc (by decide)

/-! ### Claim theorems -/

/-- Claim C1, counterexample: `formatPercentage` does not use
round-half-away-from-zero.  At `value = -0.125` (exactly representable in
binary floating point, so the rational model agrees with the JS engine)
the code's `Math.round(-12.5) = -12` yields `"-0.12%"`, while the spec's
round-half-away-from-zero yields `"-0.13%"`. -/
theorem formatPercentage_half_away_counterexample :
    formatPercentage (-1/8) 2 = "-0.12%"
    ∧ specFormatPercentage (-1/8) 2 = "-0.13%"
    ∧ formatPercentage (-1/8) 2 ≠ specFormatPercentage (-1/8) 2 := by
  have h1 : mathRound ((-1/8 : ℚ) * 10 ^ (2:ℕ)) = -12 := by norm_num [mathRound]
  have h2 : roundHalfAwayFromZero ((-1/8 : ℚ) * 10 ^ (2:ℕ)) = -13 := by
    norm_num [roundHalfAwayFromZero]
  refine ⟨?_, ?_, ?_⟩
  · simp only [formatPercentage, h1]
    decide
  · simp only [specFormatPercentage, h2]
    decide
  · simp only [formatPercentage, specFormatPercentage, h1, h2]
    decide

/-- Claim C1, amended: for every value and precision,
`formatPercentage(value, precision)` is the decimal string of
`n / 10^precision` with a literal `%` appended, where `n` is
`value * 10^precision` rounded to the nearest integer with ties toward
positive infinity (JS `Math.round`), i.e. the unique integer with
`n - 1/2 ≤ value * 10^precision < n + 1/2`; in particular
`formatPercentage(12.345) = "12.35%"` and `formatPercentage(-1) = "-1%"`. -/
theorem formatPercentage_rounds_ties_up (value : ℚ) (percision : ℕ) :
    (∃ n : ℤ, formatPercentage value percision = decimalShortString n percision ++ "%"
      ∧ (n : ℚ) - 1/2 ≤ value * 10 ^ percision
      ∧ value * 10 ^ percision < (n : ℚ) + 1/2)
    ∧ formatPercentage (12345/1000) 2 = "12.35%"
    ∧ formatPercentage (-1) 2 = "-1%" := by
  refine ⟨⟨mathRound (value * 10 ^ percision), rfl, ?_, ?_⟩, ?_, ?_⟩
  · have h := Int.floor_le (value * 10 ^ percision + 1/2)
    unfold mathRound
    linarith
  · have h := Int.lt_floor_add_one (value * 10 ^ percision + 1/2)
    unfold mathRound
    linarith
  · have h : mathRound ((12345 : ℚ)/1000 * 10 ^ (2:ℕ)) = 1235 := by norm_num [mathRound]
    simp only [formatPercentage, h]
    decide
  · have h : mathRound ((-1 : ℚ) * 10 ^ (2:ℕ)) = -100 := by norm_num [mathRound]
    simp only [formatPercentage, h]
    decide

/-- Claim C2, counterexample: when the fetch triggered by a currency
change fails, the loading overlay is shown once but never hidden (the
`await` rejection skips `$overlay.hide()`), contradicting "hidden exactly
once ... regardless of whether the request succeeds or fails". -/
theorem overlay_not_hidden_on_failure :
    ((updateCurrency "eur" demoState (.error "network failure")).1.count .hidden = 0)
    ∧ ((updateCurrency "eur" demoState (.error "network failure")).1.count .shown = 1) := by
  constructor <;> rfl

/-- Claim C2, amended: on every fetch-and-render cycle triggered by a
currency change, the overlay is shown exactly once immediately before the
request is issued; if the request succeeds it is hidden exactly once
immediately afterwards, but if the request fails it is never hidden. -/
theorem overlay_events_spec (s : State) (c e : String) (data : List Coin) :
    (updateCurrency c s (.ok data)).1 = [.shown, .requested, .hidden]
    ∧ (updateCurrency c s (.error e)).1 = [.shown, .requested] :=
  ⟨rfl, rfl⟩

/-- Claim C10: `formatPercentage` applied to a `null` percentage returns
exactly `"0%"` (the `null` coerces to the number `0` inside the
arithmetic), so a missing percentage renders identically to a true zero
change. -/
theorem formatPercentage_null_is_zero :
    jsNum none = 0
    ∧ formatPercentage (jsNum none) 2 = "0%"
    ∧ formatPercentage (jsNum none) 2 = formatPercentage 0 2
    ∧ (renderRow "USD" nullCoin).pct1h = (renderRow "USD" zeroCoin).pct1h := by
  have h : mathRound ((0:ℚ) * 10 ^ (2:ℕ)) = 0 := by norm_num [mathRound]
  refine ⟨rfl, ?_, rfl, ?_⟩
  · show formatPercentage 0 2 = "0%"
    simp only [formatPercentage, h]
    decide
  · rfl

/-- Claim C3: the derived dataset is the sorted dataset (stable sort by
the `sortByColumn` comparator over the sort field) filtered by the
case-insensitive name/symbol substring predicate; the empty search text
retains every record; the retained records appear in sorted order (the
derived list is a sublist of the sorted list); the sorted list is a
permutation of the dataset; every retained record matches the search text
case-insensitively in its name or symbol; and the sorted list is ordered
by the comparator in the requested direction. -/
theorem computeDerived_sort_then_filter (data : List Coin) (f : Field) (dir search : String) :
    computeDerived data f dir search = (sortData f dir data).filter (filterBySearch search)
    ∧ computeDerived data f dir "" = sortData f dir data
    ∧ List.Sublist (computeDerived data f dir search) (sortData f dir data)
    ∧ List.Perm (sortData f dir data) data
    ∧ (∀ c ∈ computeDerived data f dir search,
        jsIncludes (toLowerCase c.name) (toLowerCase search) = true
        ∨ jsIncludes (toLowerCase c.symbol) (toLowerCase search) = true)
    ∧ (sortData f "asc" data).Pairwise (fun a b => sortByColumn f "asc" a b ≤ 0)
    ∧ (sortData f "desc" data).Pairwise (fun a b => sortByColumn f "desc" a b ≤ 0) := by
  refine ⟨rfl, computeDerived_empty_search data f dir, List.filter_sublist _,
    sortData_perm f dir data, ?_, sortData_sorted_asc f data, sortData_sorted_desc f data⟩
  intro c hc
  have hmem := List.of_mem_filter hc
  rwa [filterBySearch, Bool.or_eq_true] at hmem

/-- Witness for C3: on a one-coin dataset the empty search retains the
coin, and the retained coin satisfies the name/symbol match. -/
theorem computeDerived_sort_then_filter_witness :
    (btc ∈ computeDerived [btc] Field.name "asc" "")
    ∧ (jsIncludes (toLowerCase btc.name) (toLowerCase "") = true
      ∨ jsIncludes (toLowerCase btc.symbol) (toLowerCase "") = true) := by
  have h := computeDerived_sort_then_filter [btc] Field.name "asc" ""
  have hmem : btc ∈ computeDerived [btc] Field.name "asc" "" := by
    rw [h.2.1]
    simp [sortData]
  exact ⟨hmem, h.2.2.2.2.1 btc hmem⟩

/-- Claim C4: clicking a column header with a different field installs
that field and the column's default direction; clicking the header of the
current sort field keeps the field and flips the direction between
`"asc"` and `"desc"`, so clicking it twice restores the original
direction. -/
theorem updateSort_spec (s : State) (f : Field) (d : String)
    (hdir : s.sort = "asc" ∨ s.sort = "desc") :
    (s.sortBy ≠ f → (updateSort f d s).sortBy = f ∧ (updateSort f d s).sort = d)
    ∧ (s.sortBy = f →
        (updateSort f d s).sortBy = s.sortBy
        ∧ (s.sort = "asc" → (updateSort f d s).sort = "desc")
        ∧ (s.sort = "desc" → (updateSort f d s).sort = "asc")
        ∧ (updateSort f d (updateSort f d s)).sort = s.sort) := by
  constructor
  · intro hne
    have hbeq : (s.sortBy == f) = false := by simp [hne]
    simp [updateSort, renderTable, hbeq]
  · intro heq
    have hbeq : (s.sortBy == f) = true := by simp [heq]
    refine ⟨by simp [updateSort, renderTable, hbeq, heq], ?_, ?_, ?_⟩
    · intro ha
      have h2 : (s.sort == "desc") = false := by rw [ha]; decide
      simp [updateSort, renderTable, hbeq, h2]
    · intro hd
      have h2 : (s.sort == "desc") = true := by rw [hd]; decide
      simp [updateSort, renderTable, hbeq, h2]
    · rcases hdir with h | h
      · have h2 : (s.sort == "desc") = false := by rw [h]; decide
        simp [updateSort, renderTable, hbeq, heq, h2, h]
      · have h2 : (s.sort == "desc") = true := by rw [h]; decide
        simp [updateSort, renderTable, hbeq, heq, h2, h]

/-- Witness for C4 at a concrete state: the demo state sorts ascending by
price, so clicking the price header flips to descending and clicking it
twice restores ascending. -/
theorem updateSort_spec_witness :
    (demoState.sort = "asc" ∨ demoState.sort = "desc")
    ∧ ((demoState.sortBy ≠ Field.name →
          (updateSort Field.name "desc" demoState).sortBy = Field.name
          ∧ (updateSort Field.name "desc" demoState).sort = "desc")
      ∧ (demoState.sortBy = Field.name →
          (updateSort Field.name "desc" demoState).sortBy = demoState.sortBy
          ∧ (demoState.sort = "asc" → (updateSort Field.name "desc" demoState).sort = "desc")
          ∧ (demoState.sort = "desc" → (updateSort Field.name "desc" demoState).sort = "asc")
          ∧ (updateSort Field.name "desc" (updateSort Field.name "desc" demoState)).sort
              = demoState.sort)) :=
  ⟨Or.inl rfl, updateSort_spec demoState Field.name "desc" (Or.inl rfl)⟩

/-- Claim C5: `formatCurrency` renders exactly 0 fraction digits when
`showDecimal` is false, else exactly 5 when `value < 1`, else exactly 2;
in particular 5 digits for `0.5 USD`, 2 for `5 USD`, and 0 for
`1234 USD` without decimals.  The hypothesis excludes a decimal point
inside the currency code itself, which real ISO codes never contain. -/
theorem formatCurrency_fraction_digits (value : ℚ) (currency : String) (showDecimal : Bool)
    (hcur : '.' ∉ currency.data) :
    fractionDigitCount (formatCurrency value currency showDecimal)
      = (if !showDecimal then 0 else if value < 1 then 5 else 2)
    ∧ fractionDigitCount (formatCurrency (1/2) "USD" true) = 5
    ∧ fractionDigitCount (formatCurrency 5 "USD" true) = 2
    ∧ fractionDigitCount (formatCurrency 1234 "USD" false) = 0 := by
  have hUSD : '.' ∉ ("USD" : String).data := by decide
  have hgen : ∀ (v : ℚ) (cur : String) (sd : Bool), '.' ∉ cur.data →
      fractionDigitCount (formatCurrency v cur sd)
        = (if !sd then 0 else if v < 1 then 5 else 2) := by
    intro v cur sd hc
    unfold formatCurrency
    exact fractionDigitCount_prefix_fixed _ (dot_not_mem_currencySymbol cur hc) v _
  refine ⟨hgen value currency showDecimal hcur, ?_, ?_, ?_⟩
  · rw [hgen (1/2) "USD" true hUSD]
    norm_num
  · rw [hgen 5 "USD" true hUSD]
    norm_num
  · rw [hgen 1234 "USD" false hUSD]
    norm_num

/-- Witness for C5 at a concrete input. -/
theorem formatCurrency_fraction_digits_witness :
    ('.' ∉ ("USD" : String).data)
    ∧ (fractionDigitCount (formatCurrency (1/2) "USD" true)
        = (if !true then 0 else if (1/2 : ℚ) < 1 then 5 else 2)
      ∧ fractionDigitCount (formatCurrency (1/2) "USD" true) = 5
      ∧ fractionDigitCount (formatCurrency 5 "USD" true) = 2
      ∧ fractionDigitCount (formatCurrency 1234 "USD" false) = 0) :=
  ⟨by decide, formatCurrency_fraction_digits (1/2) "USD" true (by decide)⟩

/-- Claim C6: with no ties on the sort field, sorting ascending produces
exactly the reverse of sorting descending (on the unfiltered derived
dataset). -/
theorem computeDerived_asc_reverse_desc (data : List Coin) (f : Field)
    (hnt : data.Pairwise fun a b => sortByColumn f "asc" a b ≠ 0) :
    computeDerived data f "asc" "" = (computeDerived data f "desc" "").reverse := by
  rw [computeDerived_empty_search, computeDerived_empty_search]
  exact sortData_asc_eq_reverse_desc f data hnt

/-- Witness for C6: the two demo coins have distinct prices, so sorting
by price ascending reverses the descending order. -/
theorem computeDerived_asc_reverse_desc_witness :
    ([btc, eth].Pairwise fun a b => sortByColumn Field.current_price "asc" a b ≠ 0)
    ∧ computeDerived [btc, eth] Field.current_price "asc" ""
        = (computeDerived [btc, eth] Field.current_price "desc" "").reverse := by
  have hp : [btc, eth].Pairwise fun a b => sortByColumn Field.current_price "asc" a b ≠ 0 := by
    simp [List.pairwise_cons, sortByColumn, fieldIsString, numVal, btc, eth]
    norm_num
  exact ⟨hp, computeDerived_asc_reverse_desc [btc, eth] Field.current_price hp⟩

/-- Claim C7: the search filter is idempotent; filtering any list twice
with the same search text equals filtering it once, and in particular the
derived dataset is unchanged by filtering it again. -/
theorem filterBySearch_idempotent (data : List Coin) (f : Field) (dir search : String) :
    (data.filter (filterBySearch search)).filter (filterBySearch search)
      = data.filter (filterBySearch search)
    ∧ (computeDerived data f dir search).filter (filterBySearch search)
      = computeDerived data f dir search := by
  constructor
  · simp [List.filter_filter]
  · unfold computeDerived
    simp [List.filter_filter]

/-- Claim C8: a record whose percentage field is `null` renders with the
neutral (empty) sign class, and rendering is total: every record of the
dataset still produces its row. -/
theorem renderRows_null_percentage (currency : String) (data : List Coin) (coin : Coin) :
    (coin.price_change_percentage_1h_in_currency = none
      → (renderRow currency coin).color1h = "")
    ∧ (coin.price_change_percentage_24h_in_currency = none
      → (renderRow currency coin).color24h = "")
    ∧ (coin.price_change_percentage_7d_in_currency = none
      → (renderRow currency coin).color7d = "")
    ∧ (renderRows currency data).length = data.length := by
  refine ⟨?_, ?_, ?_, by simp [renderRows]⟩
  all_goals intro h
  all_goals simp [renderRow, getColorClass, h, jsNum]

/-- Witness for C8 at a concrete record with all three percentage fields
`null`. -/
theorem renderRows_null_percentage_witness :
    nullCoin.price_change_percentage_1h_in_currency = none
    ∧ (renderRow "USD" nullCoin).color1h = ""
    ∧ (renderRow "USD" nullCoin).color24h = ""
    ∧ (renderRow "USD" nullCoin).color7d = ""
    ∧ (renderRows "USD" [nullCoin, btc]).length = [nullCoin, btc].length := by
  have h := renderRows_null_percentage "USD" [nullCoin, btc] nullCoin
  exact ⟨rfl, h.1 rfl, h.2.1 rfl, h.2.2.1 rfl, h.2.2.2⟩

/-- Claim C9: every render sorts the stored array in place: after a
search-triggered or sort-triggered render the process-wide
`lastFetchedData` equals the old array sorted by the current comparator,
after a successful fetch it equals the fetched array sorted, and on the
demo state the stored array no longer retains the API's order. -/
theorem renderTable_mutates_lastFetchedData (s : State) (v : String) (f : Field)
    (d : String) (data : List Coin) :
    (updateSearch v s).lastFetchedData = sortData s.sortBy s.sort s.lastFetchedData
    ∧ (updateSort f d s).lastFetchedData
        = sortData (updateSort f d s).sortBy (updateSort f d s).sort s.lastFetchedData
    ∧ (∀ s' : State, (fetchAndRenderTable s (.ok data)).2 = .ok s'
        → s'.lastFetchedData = sortData s.sortBy s.sort data)
    ∧ (updateSearch "" demoState).lastFetchedData ≠ demoState.lastFetchedData := by
  refine ⟨rfl, rfl, ?_, ?_⟩
  · intro s' hs'
    have h : renderTable { s with lastFetchedData := data } = s' := by
      simpa [fetchAndRenderTable] using hs'
    rw [← h]
    rfl
  · intro heq
    have h1 : sortData Field.current_price "asc" [btc, eth] = [btc, eth] := by
      simpa [updateSearch, renderTable, demoState] using heq
    have h2 := sortData_sorted_asc Field.current_price [btc, eth]
    rw [h1] at h2
    have h3 : sortByColumn Field.current_price "asc" btc eth ≤ 0 :=
      (List.pairwise_cons.mp h2).1 eth (by simp)
    have h4 : sortByColumn Field.current_price "asc" btc eth = 47000 := by
      simp [sortByColumn, fieldIsString, numVal, btc, eth]
      norm_num
    rw [h4] at h3
    norm_num at h3

/-- Witness for C9 at a concrete successful fetch on the demo state. -/
theorem renderTable_mutates_lastFetchedData_witness :
    ((fetchAndRenderTable demoState (.ok [eth])).2
        = .ok (renderTable { demoState with lastFetchedData := [eth] }))
    ∧ (renderTable { demoState with lastFetchedData := [eth] }).lastFetchedData
        = sortData demoState.sortBy demoState.sort [eth] :=
  ⟨rfl, (renderTable_mutates_lastFetchedData demoState "" Field.name "" [eth]).2.2.1 _ rfl⟩

end CoinPanda
